import Mathlib

/-!
Shallow embedding of the alpha_fold_query repository
(src/alpha_fold_query.py and src/run_alpha_fold_query.py).

Modelling conventions:
* An HTTP response is abstracted by its status code together with the two
  views the code reads from it: the JSON body (only ever accessed as
  `r.json()[0]`, which may fail, hence an `Option`) and the text body.
* The text body of a structure file is abstracted as a list of already
  tokenized lines: a line whose whitespace-tokenization is empty or whose
  first token differs from "ATOM" is `CifLine.skip`; an ATOM line is
  abstracted by its two parsed fixed-position fields, the integer residue
  number (`cols[8]`) and the plddt value (`cols[14]`), the float being
  modelled as a rational.
* The network is an oracle `HttpWorld`: for each URL, the response of the
  i-th GET attempt at that URL.
* Python floats carry only comparisons against 0 and 100 and length counts
  here, so rationals are a faithful model.
* `pandas` rows and the parquet files are modelled as lists of `OutputRow`;
  a cell that holds Python `None` (the plddts column can) is an `Option`.
-/

namespace AFQ

/-- The two fields of the metadata payload the code ever reads, each by
`dict.get`, hence optional: `alpha_fold_data.get("sequence")` and
`alpha_fold_data.get("cifUrl")`. -/
structure AlphaFoldData where
  sequence : Option String
  cifUrl : Option String
deriving DecidableEq

/-- One parsed field pair of an ATOM line: `int(cols[8])` and
`float(cols[14])` from `parse_plddt_from_cif`. -/
structure AtomRecord where
  residue : Int
  plddt : ℚ
deriving DecidableEq

/-- One line of a cif text after `l.split()`: either skipped
(`len(cols) == 0 or cols[0] != "ATOM"`) or an ATOM record. -/
inductive CifLine where
  | skip : CifLine
  | atom : AtomRecord → CifLine
deriving DecidableEq

/-- An HTTP response as the code observes it: `r.status_code`, the value of
`r.json()[0]` when that succeeds (`none` models the swallowed exception or a
missing element), and `r.text` viewed as tokenized cif lines. -/
structure Response where
  status_code : Int
  json0 : Option AlphaFoldData
  text : List CifLine

/-- The network oracle: for each URL, the response of the i-th GET attempt
(0-indexed) at that URL. -/
structure HttpWorld where
  endpoint : String → Nat → Response

/-- `ALPHAFOLD_PREDICTION_URL.format(accession=accession)`. -/
def ALPHAFOLD_PREDICTION_URL (accession : String) : String :=
  "https://alphafold.ebi.ac.uk/api/prediction/" ++ accession

/-- The loop of `get_with_retries`, carrying the index `i` of the next
attempt and the number of loop iterations still allowed. When the loop
budget is exhausted the function falls through to one more unguarded
`requests.get` and returns its response. Returns the response together with
the total number of GET attempts performed. -/
def get_with_retries_from (endpoint : Nat → Response) : Nat → Nat → Response × Nat
  | i, 0 => (endpoint i, i + 1)
  | i, r + 1 =>
    let resp := endpoint i
    if resp.status_code ≠ 200 then
      get_with_retries_from endpoint (i + 1) r
    else
      (resp, i + 1)

/-- `get_with_retries(url, retries, backoff_time, **kwargs)`: up to `retries`
attempts inside the loop, returning early on a 200 status, then one final
unguarded attempt. `backoff_time` only controls `time.sleep` between
attempts, which has no observable effect in this model. The second component
counts the GET attempts performed. -/
def get_with_retries (endpoint : Nat → Response) (retries : Nat)
    (backoff_time : Nat) : Response × Nat :=
  let _ := backoff_time
  get_with_retries_from endpoint 0 retries

/-- The loop body of `parse_plddt_from_cif`, carrying `cur_residue`.
Validation happens on every ATOM line; a value is appended (and
`cur_residue` updated) only when the residue number differs from
`cur_residue`. -/
def parse_lines (cur_residue : Int) : List CifLine → Except String (List ℚ)
  | [] => .ok []
  | .skip :: rest => parse_lines cur_residue rest
  | .atom rec :: rest =>
    if rec.residue < 1 then
      .error "Parsed a residue number which is smaller than 1"
    else if rec.plddt < 0 ∨ rec.plddt > 100 then
      .error "Parsed a plddt which is not between 1 and 100"
    else if rec.residue ≠ cur_residue then
      (parse_lines rec.residue rest).map (fun l => rec.plddt :: l)
    else
      parse_lines cur_residue rest

/-- `parse_plddt_from_cif(cif_text)`: `cur_residue` starts at `-1`; a raised
exception is the `.error` case. -/
def parse_plddt_from_cif (cif_lines : List CifLine) : Except String (List ℚ) :=
  parse_lines (-1) cif_lines

/-- The `AlphaFoldQueryResult` namedtuple. -/
structure AlphaFoldQueryResult where
  http_status : Int
  accession : String
  sequence : Option String
  plddts : Option (List ℚ)
  alpha_fold_data : Option AlphaFoldData
  cif_text : Option (List CifLine)
deriving DecidableEq

/-- The arguments of one call to `get_with_retries`, recorded so that the
retry/backoff/timeout configuration each fetch receives is observable. -/
structure FetchCall where
  url : String
  retries : Nat
  backoff_time : Nat
  timeout : Nat
deriving DecidableEq

/-- `query_alphafold(accession, timeout, retries, get_cif, backoff_time)`.
Returns the result (`.error` when the Python function raises) together with
the trace of `get_with_retries` calls it performed, each recording the
arguments it was given. Note the metadata fetch at source line 85 passes the
literal `backoff_time=5`, not the `backoff_time` parameter; the cif fetch
passes the parameter. -/
def query_alphafold (w : HttpWorld) (accession : String) (timeout : Nat)
    (retries : Nat) (get_cif : Bool) (backoff_time : Nat) :
    Except String AlphaFoldQueryResult × List FetchCall :=
  let url := ALPHAFOLD_PREDICTION_URL accession
  let call1 : FetchCall := ⟨url, retries, 5, timeout⟩
  let r := (get_with_retries (w.endpoint url) retries 5).1
  let response_code_alpha_fold := r.status_code
  if response_code_alpha_fold ≠ 200 then
    (.ok ⟨response_code_alpha_fold, accession, none, none, none, none⟩, [call1])
  else
    match r.json0 with
    | none =>
      (.ok ⟨response_code_alpha_fold, accession, none, none, none, none⟩, [call1])
    | some alpha_fold_data =>
      match alpha_fold_data.sequence with
      | none =>
        (.ok ⟨response_code_alpha_fold, accession, none, none,
          some alpha_fold_data, none⟩, [call1])
      | some sequence =>
        if get_cif then
          match alpha_fold_data.cifUrl with
          | none =>
            (.ok ⟨response_code_alpha_fold, accession, some sequence, none,
              some alpha_fold_data, none⟩, [call1])
          | some cif_url =>
            let call2 : FetchCall := ⟨cif_url, retries, backoff_time, timeout⟩
            let r_cif := (get_with_retries (w.endpoint cif_url) retries backoff_time).1
            if r_cif.status_code ≠ 200 then
              (.ok ⟨response_code_alpha_fold, accession, some sequence, none,
                some alpha_fold_data, none⟩, [call1, call2])
            else
              match parse_plddt_from_cif r_cif.text with
              | .error e => (.error e, [call1, call2])
              | .ok plddts =>
                if sequence.length ≠ plddts.length then
                  (.error "sequence and plddts do not have the same length",
                    [call1, call2])
                else
                  (.ok ⟨response_code_alpha_fold, accession, some sequence,
                    some plddts, some alpha_fold_data, some r_cif.text⟩,
                    [call1, call2])
        else
          (.ok ⟨response_code_alpha_fold, accession, some sequence, none,
            some alpha_fold_data, none⟩, [call1])

/-- One row of the output dataframe of `run_alpha_fold_query.main`:
`["uniprot_id", "n_residues", "sequence", "plddts"]`. A row is only ever
appended after `len(query_result.sequence)` succeeded, so its sequence cell
is a string, while the plddts cell holds whatever `query_result.plddts` was,
possibly `None`. -/
structure OutputRow where
  uniprot_id : String
  n_residues : Nat
  sequence : String
  plddts : Option (List ℚ)
deriving DecidableEq

/-- `list(df_out["uniprot_id"])`: the accessions already present. -/
def seenAccessions (df_out : List OutputRow) : List String :=
  df_out.map (fun row => row.uniprot_id)

/-- `list(set(uniprot_ids_in).difference(seen))`: the accessions handed to
`query_alphafold_bulk`. Python set iteration order is modelled by
`List.dedup` order; the claims only depend on the underlying set and on
each member occurring once. -/
def ids_to_query (df_out : List OutputRow) (uniprot_ids_in : List String) :
    List String :=
  uniprot_ids_in.dedup.filter (fun a => decide (a ∉ seenAccessions df_out))

/-- The `for query_result in query_result_generator` loop of `main`, fused
with the lazy generator `query_alphafold_bulk` (which calls
`query_alphafold` with default keyword arguments: timeout 10, retries 2,
get_cif True, backoff_time 5, one call per consumed element). Returns the
accessions actually queried, and either the accumulated rows or, when an
exception escapes the loop body, the rows accumulated so far with the
exception. `len(query_result.sequence)` on `None` raises a `TypeError`. -/
def collectLoop (w : HttpWorld) (rows : List OutputRow) :
    List String → List String × Except (List OutputRow × String) (List OutputRow)
  | [] => ([], .ok rows)
  | a :: rest =>
    match (query_alphafold w a 10 2 true 5).1 with
    | .error e => ([a], .error (rows, e))
    | .ok query_result =>
      if query_result.http_status ≠ 200 then
        let res := collectLoop w rows rest
        (a :: res.1, res.2)
      else
        match query_result.sequence with
        | none =>
          ([a], .error (rows, "TypeError: object of type NoneType has no len"))
        | some s =>
          let row : OutputRow := ⟨query_result.accession, s.length, s, query_result.plddts⟩
          let res := collectLoop w (rows ++ [row]) rest
          (a :: res.1, res.2)

/-- What a run of `main` did: the rows written to the primary parquet path
(on normal completion), the rows written to the `saved_after_exc` recovery
path (when an exception escaped the loop), the re-raised exception, and the
accessions actually queried. -/
structure CollectOutcome where
  primary : Option (List OutputRow)
  recovery : Option (List OutputRow)
  error : Option String
  queried : List String
deriving DecidableEq

/-- `run_alpha_fold_query.main(uniprot_ids_in, output_path)`. `store` is the
content of the primary parquet file (`none` when the file does not exist,
in which case an empty dataframe is used). On success the whole dataframe
(pre-existing rows plus appended rows) is written to the primary path; on an
exception the dataframe accumulated so far is written to the recovery path
and the exception is re-raised. -/
def main (w : HttpWorld) (uniprot_ids_in : List String)
    (store : Option (List OutputRow)) : CollectOutcome :=
  let df_out := store.getD []
  let res := collectLoop w df_out (ids_to_query df_out uniprot_ids_in)
  match res.2 with
  | .ok rows => ⟨some rows, none, none, res.1⟩
  | .error (rows, e) => ⟨none, some rows, some e, res.1⟩

/-! Concrete networks used to instantiate the theorems. -/

/-- An endpoint whose every attempt answers status 404 with no usable body. -/
def alwaysFail : Nat → Response := fun _ => ⟨404, none, []⟩

/-- A network on which every GET at every URL answers 404. -/
def w404 : HttpWorld := ⟨fun _ _ => alwaysFail 0⟩

/-- A network for accession "A": metadata 200 with sequence "AB" but no
cifUrl key. -/
def wNoCif : HttpWorld :=
  ⟨fun url _ =>
    if url = ALPHAFOLD_PREDICTION_URL "A" then ⟨200, some ⟨some "AB", none⟩, []⟩
    else ⟨404, none, []⟩⟩

/-- A network for accession "A": metadata 200 with sequence "ABC" (length 3)
and a cif file that parses to a single plddt value, so the length check in
`query_alphafold` fails. -/
def wMismatch : HttpWorld :=
  ⟨fun url _ =>
    if url = ALPHAFOLD_PREDICTION_URL "A" then ⟨200, some ⟨some "ABC", some "uA"⟩, []⟩
    else if url = "uA" then ⟨200, none, [.atom ⟨1, 90⟩]⟩
    else ⟨404, none, []⟩⟩

/-- A network for accession "A": metadata 200 with sequence "AB" and a cif
file parsing to two plddt values, so the whole query succeeds. -/
def wOk : HttpWorld :=
  ⟨fun url _ =>
    if url = ALPHAFOLD_PREDICTION_URL "A" then ⟨200, some ⟨some "AB", some "uA"⟩, []⟩
    else if url = "uA" then ⟨200, none, [.atom ⟨1, 90⟩, .atom ⟨2, 80⟩]⟩
    else ⟨404, none, []⟩⟩

/-- A network for accession "X": metadata 200 whose payload parses but has
no sequence key. -/
def wNoSeq : HttpWorld :=
  ⟨fun url _ =>
    if url = ALPHAFOLD_PREDICTION_URL "X" then ⟨200, some ⟨none, none⟩, []⟩
    else ⟨404, none, []⟩⟩

/-! Definitions used to state the claims. -/

/-- The ATOM records of a cif text, in order of appearance. -/
def atomRecords : List CifLine → List AtomRecord
  | [] => []
  | .skip :: rest => atomRecords rest
  | .atom rec :: rest => rec :: atomRecords rest

/-- Modelled from the spec, for the refinement comparison of C7: a value is
appended for an atom record exactly when its residue index differs from the
residue index of the immediately preceding appended record (`none` when
nothing has been appended yet). -/
def changeDetectSpec : Option Int → List AtomRecord → List ℚ
  | _, [] => []
  | prev, rec :: rest =>
    if some rec.residue ≠ prev then rec.plddt :: changeDetectSpec (some rec.residue) rest
    else changeDetectSpec prev rest

/-- The length invariant of an output row: the residue count equals the
length of the sequence, and when the plddts cell is present its length
equals the residue count as well. -/
def RowOk (row : OutputRow) : Prop :=
  row.n_residues = row.sequence.length ∧
  ∀ l, row.plddts = some l → l.length = row.n_residues

/-! Helper lemmas about `get_with_retries`. -/

/-- On an endpoint whose every attempt has non-200 status, the loop runs
through its whole budget and the unguarded final attempt is performed. -/
theorem get_with_retries_from_fail (endpoint : Nat → Response)
    (hfail : ∀ i, (endpoint i).status_code ≠ 200) :
    ∀ (r i : Nat), get_with_retries_from endpoint i r = (endpoint (i + r), i + r + 1) := by
  intro r
  induction r with
  | zero => intro i; simp [get_with_retries_from]
  | succ n ih =>
    intro i
    have h : i + (n + 1) = (i + 1) + n := by omega
    simp [get_with_retries_from, hfail i, h, ih (i + 1)]

/-! Helper lemmas about `parse_plddt_from_cif`. -/

/-- On valid input, the parser loop computes exactly the spec-side
change-detection over the ATOM records, for any `cur_residue` compatible
with the spec-side previously-appended residue. -/
theorem parse_lines_changeDetect (lines : List CifLine) :
    ∀ (cur : Int) (prev : Option Int),
      (∀ rec ∈ atomRecords lines, 1 ≤ rec.residue ∧ 0 ≤ rec.plddt ∧ rec.plddt ≤ 100) →
      (∀ n : Int, 1 ≤ n → (n ≠ cur ↔ some n ≠ prev)) →
      parse_lines cur lines = .ok (changeDetectSpec prev (atomRecords lines)) := by
  induction lines with
  | nil => intro cur prev _ _; rfl
  | cons head rest ih =>
    intro cur prev hvalid hcomp
    cases head with
    | skip =>
      simpa [parse_lines, atomRecords] using
        ih cur prev (fun rec hr => hvalid rec (by simpa [atomRecords] using hr)) hcomp
    | atom rec =>
      obtain ⟨hres, hlo, hhi⟩ := hvalid rec (by simp [atomRecords])
      have hrest : ∀ r2 ∈ atomRecords rest, 1 ≤ r2.residue ∧ 0 ≤ r2.plddt ∧ r2.plddt ≤ 100 :=
        fun r2 hr => hvalid r2 (by simp [atomRecords, hr])
      have h1 : ¬ rec.residue < 1 := not_lt.mpr hres
      have h2 : ¬ (rec.plddt < 0 ∨ rec.plddt > 100) := by
        push_neg
        exact ⟨hlo, hhi⟩
      by_cases hne : rec.residue = cur
      · have hprev : some rec.residue = prev := by
          by_contra hcon
          exact ((hcomp rec.residue hres).mpr hcon) hne
        simp only [parse_lines, atomRecords, changeDetectSpec]
        rw [if_neg h1, if_neg h2, if_neg (not_not_intro hne), if_neg (not_not_intro hprev)]
        exact ih cur prev hrest hcomp
      · have hprev : some rec.residue ≠ prev := (hcomp rec.residue hres).mp hne
        have ihh := ih rec.residue (some rec.residue) hrest (fun n _ => by simp)
        simp only [parse_lines, atomRecords, changeDetectSpec]
        rw [if_neg h1, if_neg h2, if_pos hne, if_pos hprev, ihh]
        rfl

/-- Any invalid ATOM record anywhere in the input makes the parser loop
raise one of its two validation errors, whatever `cur_residue` is. -/
theorem parse_lines_error_of_invalid (lines : List CifLine) :
    ∀ cur : Int,
      (∃ rec ∈ atomRecords lines, rec.residue < 1 ∨ rec.plddt < 0 ∨ 100 < rec.plddt) →
      parse_lines cur lines = .error "Parsed a residue number which is smaller than 1" ∨
      parse_lines cur lines = .error "Parsed a plddt which is not between 1 and 100" := by
  induction lines with
  | nil => intro cur h; simp [atomRecords] at h
  | cons head rest ih =>
    intro cur hex
    cases head with
    | skip =>
      simpa [parse_lines, atomRecords] using ih cur (by simpa [atomRecords] using hex)
    | atom rec =>
      by_cases h1 : rec.residue < 1
      · left
        simp [parse_lines, h1]
      · by_cases h2 : rec.plddt < 0 ∨ rec.plddt > 100
        · right
          simp [parse_lines, h1, h2]
        · have hex2 : ∃ r2 ∈ atomRecords rest,
              r2.residue < 1 ∨ r2.plddt < 0 ∨ 100 < r2.plddt := by
            rcases hex with ⟨r2, hmem, hbad⟩
            rcases (by simpa [atomRecords] using hmem : r2 = rec ∨ r2 ∈ atomRecords rest)
              with heq | hm
            · subst heq
              exfalso
              push_neg at h2
              rcases hbad with hb | hb | hb
              · exact h1 hb
              · exact absurd hb (not_lt.mpr h2.1)
              · exact absurd hb (not_lt.mpr h2.2)
            · exact ⟨r2, hm, hbad⟩
          by_cases hne : rec.residue = cur
          · rcases ih cur hex2 with h | h
            · left
              simp only [parse_lines]
              rw [if_neg h1, if_neg h2, if_neg (not_not_intro hne), h]
            · right
              simp only [parse_lines]
              rw [if_neg h1, if_neg h2, if_neg (not_not_intro hne), h]
          · rcases ih rec.residue hex2 with h | h
            · left
              simp only [parse_lines]
              rw [if_neg h1, if_neg h2, if_pos hne, h]
              rfl
            · right
              simp only [parse_lines]
              rw [if_neg h1, if_neg h2, if_pos hne, h]
              rfl

/-! Helper lemmas about `query_alphafold`. -/

/-- Every result `query_alphafold` returns (rather than raising) carries the
queried accession, and its plddts, when present, have the same length as its
(then necessarily present) sequence. -/
theorem query_ok_spec (w : HttpWorld) (a : String) (t r b : Nat) (g : Bool)
    (res : AlphaFoldQueryResult)
    (h : (query_alphafold w a t r g b).1 = .ok res) :
    res.accession = a ∧
    (∀ l, res.plddts = some l → ∃ s, res.sequence = some s ∧ s.length = l.length) := by
  simp only [query_alphafold] at h
  repeat' split at h
  all_goals try exact Except.noConfusion h
  all_goals injection h with h
  all_goals subst h
  all_goals refine ⟨rfl, ?_⟩
  all_goals intro l hl
  all_goals try exact Option.noConfusion hl
  all_goals injection hl with hl
  all_goals subst hl
  all_goals exact ⟨_, rfl, by omega⟩

/-- When the metadata fetch succeeds with a payload carrying a sequence and
a cif URL, the cif fetch succeeds, and the cif parses to a list whose length
differs from the sequence length, `query_alphafold` raises the consistency
error instead of returning a result. -/
theorem query_mismatch_error (w : HttpWorld) (a : String) (t r b : Nat)
    (afd : AlphaFoldData) (s u : String) (l : List ℚ)
    (hst : ((get_with_retries (w.endpoint (ALPHAFOLD_PREDICTION_URL a)) r 5).1).status_code = 200)
    (hjson : ((get_with_retries (w.endpoint (ALPHAFOLD_PREDICTION_URL a)) r 5).1).json0 = some afd)
    (hseq : afd.sequence = some s)
    (hurl : afd.cifUrl = some u)
    (hcst : ((get_with_retries (w.endpoint u) r b).1).status_code = 200)
    (hparse : parse_plddt_from_cif ((get_with_retries (w.endpoint u) r b).1).text = .ok l)
    (hlen : s.length ≠ l.length) :
    (query_alphafold w a t r true b).1 =
      .error "sequence and plddts do not have the same length" := by
  simp [query_alphafold, hst, hjson, hseq, hurl, hcst, hparse, hlen]

/-! Helper lemmas about `collectLoop` and `main`. -/

/-- The dataframe `collectLoop` ends with — normally or at an exception —
extends the dataframe it started from by the appended rows. -/
theorem collectLoop_rows (w : HttpWorld) :
    ∀ (ids : List String) (rows : List OutputRow),
      (∀ rows2, (collectLoop w rows ids).2 = .ok rows2 → ∃ t, rows2 = rows ++ t) ∧
      (∀ rows2 e, (collectLoop w rows ids).2 = .error (rows2, e) → ∃ t, rows2 = rows ++ t) := by
  intro ids
  induction ids with
  | nil =>
    intro rows
    constructor
    · intro rows2 h
      simp only [collectLoop, Except.ok.injEq] at h
      exact ⟨[], by simp [← h]⟩
    · intro rows2 e h
      simp only [collectLoop] at h
      exact Except.noConfusion h
  | cons a rest ih =>
    intro rows
    rcases hq : (query_alphafold w a 10 2 true 5).1 with e0 | res
    · constructor
      · intro rows2 h
        simp only [collectLoop, hq] at h
        exact Except.noConfusion h
      · intro rows2 e h
        simp only [collectLoop, hq, Except.error.injEq, Prod.mk.injEq] at h
        exact ⟨[], by simp [← h.1]⟩
    · by_cases hst : res.http_status = 200
      · rcases hs : res.sequence with _ | s
        · constructor
          · intro rows2 h
            simp [collectLoop, hq, hst, hs] at h
          · intro rows2 e h
            simp [collectLoop, hq, hst, hs] at h
            exact ⟨[], by simp [← h.1]⟩
        · have ih2 := ih (rows ++ [⟨res.accession, s.length, s, res.plddts⟩])
          constructor
          · intro rows2 h
            have h2 : (collectLoop w (rows ++ [⟨res.accession, s.length, s, res.plddts⟩]) rest).2
                = .ok rows2 := by
              simpa [collectLoop, hq, hst, hs] using h
            rcases ih2.1 rows2 h2 with ⟨t, ht⟩
            exact ⟨[⟨res.accession, s.length, s, res.plddts⟩] ++ t, by rw [ht, List.append_assoc]⟩
          · intro rows2 e h
            have h2 : (collectLoop w (rows ++ [⟨res.accession, s.length, s, res.plddts⟩]) rest).2
                = .error (rows2, e) := by
              simpa [collectLoop, hq, hst, hs] using h
            rcases ih2.2 rows2 e h2 with ⟨t, ht⟩
            exact ⟨[⟨res.accession, s.length, s, res.plddts⟩] ++ t, by rw [ht, List.append_assoc]⟩
      · have ih2 := ih rows
        constructor
        · intro rows2 h
          exact ih2.1 rows2 (by simpa [collectLoop, hq, hst] using h)
        · intro rows2 e h
          exact ih2.2 rows2 e (by simpa [collectLoop, hq, hst] using h)

/-- When `collectLoop` completes without an exception it has consumed, and
hence queried, every pending accession. -/
theorem collectLoop_ok_queried (w : HttpWorld) :
    ∀ (ids : List String) (rows rows2 : List OutputRow),
      (collectLoop w rows ids).2 = .ok rows2 → (collectLoop w rows ids).1 = ids := by
  intro ids
  induction ids with
  | nil => intro rows rows2 _; rfl
  | cons a rest ih =>
    intro rows rows2 h
    rcases hq : (query_alphafold w a 10 2 true 5).1 with e0 | res
    · simp [collectLoop, hq] at h
    · by_cases hst : res.http_status = 200
      · rcases hs : res.sequence with _ | s
        · simp [collectLoop, hq, hst, hs] at h
        · have h2 := ih (rows ++ [⟨res.accession, s.length, s, res.plddts⟩]) rows2
            (by simpa [collectLoop, hq, hst, hs] using h)
          simp [collectLoop, hq, hst, hs, h2]
      · have h2 := ih rows rows2 (by simpa [collectLoop, hq, hst] using h)
        simp [collectLoop, hq, hst, h2]

/-- When `collectLoop` completes without an exception, every pending
accession whose query succeeded with status 200 ends up in the final
dataframe. -/
theorem collectLoop_ok_seen (w : HttpWorld) :
    ∀ (ids : List String) (rows rows2 : List OutputRow),
      (collectLoop w rows ids).2 = .ok rows2 →
      ∀ a ∈ ids,
        (∃ res, (query_alphafold w a 10 2 true 5).1 = .ok res ∧ res.http_status = 200) →
        a ∈ seenAccessions rows2 := by
  intro ids
  induction ids with
  | nil =>
    intro rows rows2 _ a ha
    exact absurd ha (List.not_mem_nil a)
  | cons a0 rest ih =>
    intro rows rows2 h a ha hok
    rcases hq : (query_alphafold w a0 10 2 true 5).1 with e0 | res
    · simp [collectLoop, hq] at h
    · by_cases hst : res.http_status = 200
      · rcases hs : res.sequence with _ | s
        · simp [collectLoop, hq, hst, hs] at h
        · have h2 : (collectLoop w (rows ++ [⟨res.accession, s.length, s, res.plddts⟩]) rest).2
              = .ok rows2 := by
            simpa [collectLoop, hq, hst, hs] using h
          rcases List.mem_cons.mp ha with rfl | hmem
          · have hacc : res.accession = a := (query_ok_spec w a 10 2 5 true res hq).1
            rcases (collectLoop_rows w rest
                (rows ++ [⟨res.accession, s.length, s, res.plddts⟩])).1 rows2 h2 with ⟨t, ht⟩
            subst ht
            simp [seenAccessions, hacc]
          · exact ih _ rows2 h2 a hmem hok
      · have h2 : (collectLoop w rows rest).2 = .ok rows2 := by
          simpa [collectLoop, hq, hst] using h
        rcases List.mem_cons.mp ha with rfl | hmem
        · rcases hok with ⟨res2, hres2, hst2⟩
          rw [hq] at hres2
          cases hres2
          exact absurd hst2 hst
        · exact ih rows rows2 h2 a hmem hok

/-- Membership in the pending set: exactly the input accessions not already
present in the store. -/
theorem mem_ids_to_query (df_out : List OutputRow) (input : List String) (a : String) :
    a ∈ ids_to_query df_out input ↔ a ∈ input ∧ a ∉ seenAccessions df_out := by
  simp [ids_to_query, List.mem_filter, List.mem_dedup]

/-- The pending list holds each pending accession exactly once. -/
theorem ids_to_query_nodup (df_out : List OutputRow) (input : List String) :
    (ids_to_query df_out input).Nodup :=
  (List.nodup_dedup input).filter _

/-- Unfolding `main` when the loop completes normally. -/
theorem main_eq_ok (w : HttpWorld) (input : List String) (store : Option (List OutputRow))
    (q : List String) (rows : List OutputRow)
    (h : collectLoop w (store.getD []) (ids_to_query (store.getD []) input) = (q, .ok rows)) :
    main w input store = ⟨some rows, none, none, q⟩ := by
  simp [main, h]

/-- Unfolding `main` when an exception escapes the loop. -/
theorem main_eq_error (w : HttpWorld) (input : List String) (store : Option (List OutputRow))
    (q : List String) (rows : List OutputRow) (e : String)
    (h : collectLoop w (store.getD []) (ids_to_query (store.getD []) input)
      = (q, .error (rows, e))) :
    main w input store = ⟨none, some rows, some e, q⟩ := by
  simp [main, h]

/-! Claim theorems. -/

/-- C1 counterexample: `get_with_retries` with `retries = 1` against an
endpoint whose every response is 404 performs 2 GET attempts, not exactly 1
as the claim states. -/
theorem C1_counterexample :
    (get_with_retries alwaysFail 1 5).2 = 2 ∧ ¬ (get_with_retries alwaysFail 1 5).2 = 1 := by
  constructor <;> decide

/-- C1 (amended): against an endpoint whose every response has non-success
status, `get_with_retries` with `retries = N` performs exactly N + 1 GET
attempts (the N loop attempts plus the final unguarded one) and returns the
final attempt's response; it never raises for a non-success status. -/
theorem C1_retry_bound (endpoint : Nat → Response) (retries backoff_time : Nat)
    (hfail : ∀ i, (endpoint i).status_code ≠ 200) :
    get_with_retries endpoint retries backoff_time = (endpoint retries, retries + 1) := by
  have h := get_with_retries_from_fail endpoint hfail retries 0
  simpa [get_with_retries] using h

/-- C1 witness: the amended retry bound at `retries = 3` on the concrete
always-404 endpoint. -/
theorem C1_retry_bound_witness :
    get_with_retries alwaysFail 3 5 = (alwaysFail 3, 4) :=
  C1_retry_bound alwaysFail 3 5 (fun i => by simp [alwaysFail])

/-- C2 counterexample: on a network where the metadata of "A" is fine but
has no cifUrl key, a completed run writes a row whose plddts cell is `None`,
so the confidence-scores column of a written row can be absent. -/
theorem C2_counterexample :
    (main wNoCif ["A"] none).primary = some [⟨"A", 2, "AB", none⟩] ∧
    (⟨"A", 2, "AB", none⟩ : OutputRow).plddts = none := by
  constructor <;> rfl

/-- C2 (amended): every row the collector ever writes — to the primary store
or to the recovery location — has its residue count equal to the length of
its sequence, and equal to the length of its confidence scores whenever
those are present; the confidence-scores cell of a written row may however
be absent (when the structure file was not fetched). Assumes the
pre-existing store rows satisfy the same invariant. -/
theorem C2_row_invariant (w : HttpWorld) (input : List String)
    (store : Option (List OutputRow))
    (hstore : ∀ row ∈ store.getD [], RowOk row) :
    ∀ rows, ((main w input store).primary = some rows ∨
        (main w input store).recovery = some rows) →
      ∀ row ∈ rows, RowOk row := by
  have hloop : ∀ (ids : List String) (rows0 : List OutputRow),
      (∀ row ∈ rows0, RowOk row) →
      (∀ rows2, (collectLoop w rows0 ids).2 = .ok rows2 → ∀ row ∈ rows2, RowOk row) ∧
      (∀ rows2 e, (collectLoop w rows0 ids).2 = .error (rows2, e) →
        ∀ row ∈ rows2, RowOk row) := by
    intro ids
    induction ids with
    | nil =>
      intro rows0 h0
      constructor
      · intro rows2 h
        simp only [collectLoop, Except.ok.injEq] at h
        exact h ▸ h0
      · intro rows2 e h
        exact Except.noConfusion h
    | cons a rest ih =>
      intro rows0 h0
      rcases hq : (query_alphafold w a 10 2 true 5).1 with e0 | res
      · constructor
        · intro rows2 h
          simp only [collectLoop, hq] at h
          exact Except.noConfusion h
        · intro rows2 e h
          simp only [collectLoop, hq, Except.error.injEq, Prod.mk.injEq] at h
          exact h.1 ▸ h0
      · by_cases hst : res.http_status = 200
        · rcases hs : res.sequence with _ | s
          · constructor
            · intro rows2 h
              simp [collectLoop, hq, hst, hs] at h
            · intro rows2 e h
              simp [collectLoop, hq, hst, hs] at h
              exact h.1 ▸ h0
          · have hrow : RowOk ⟨res.accession, s.length, s, res.plddts⟩ := by
              refine ⟨rfl, fun l hl => ?_⟩
              rcases (query_ok_spec w a 10 2 5 true res hq).2 l hl with ⟨s2, hs2, hlen⟩
              rw [hs] at hs2
              cases hs2
              simpa using hlen.symm
            have h0app : ∀ row ∈ rows0 ++ [(⟨res.accession, s.length, s, res.plddts⟩ : OutputRow)],
                RowOk row := by
              intro row hr
              rcases List.mem_append.mp hr with hr | hr
              · exact h0 row hr
              · rcases List.mem_singleton.mp hr with rfl
                exact hrow
            have ih2 := ih (rows0 ++ [⟨res.accession, s.length, s, res.plddts⟩]) h0app
            constructor
            · intro rows2 h
              exact ih2.1 rows2 (by simpa [collectLoop, hq, hst, hs] using h)
            · intro rows2 e h
              exact ih2.2 rows2 e (by simpa [collectLoop, hq, hst, hs] using h)
        · have ih2 := ih rows0 h0
          constructor
          · intro rows2 h
            exact ih2.1 rows2 (by simpa [collectLoop, hq, hst] using h)
          · intro rows2 e h
            exact ih2.2 rows2 e (by simpa [collectLoop, hq, hst] using h)
  intro rows hmem row hrow
  rcases hc : collectLoop w (store.getD []) (ids_to_query (store.getD []) input)
    with ⟨q, r2⟩
  rcases r2 with ⟨rows1, e⟩ | rows1
  · rw [main_eq_error w input store q rows1 e hc] at hmem
    rcases hmem with hmem | hmem
    · exact Option.noConfusion hmem
    · cases Option.some.inj hmem
      exact (hloop (ids_to_query (store.getD []) input) (store.getD []) hstore).2
        rows e (by rw [hc]) row hrow
  · rw [main_eq_ok w input store q rows1 hc] at hmem
    rcases hmem with hmem | hmem
    · cases Option.some.inj hmem
      exact (hloop (ids_to_query (store.getD []) input) (store.getD []) hstore).1
        rows (by rw [hc]) row hrow
    · exact Option.noConfusion hmem

/-- C2 witness: the amended invariant instantiated on a concrete successful
run whose single written row has both cells present. -/
theorem C2_row_invariant_witness :
    (main wOk ["A"] none).primary = some [⟨"A", 2, "AB", some [90, 80]⟩] ∧
    RowOk ⟨"A", 2, "AB", some [90, 80]⟩ := by
  refine ⟨rfl, ?_⟩
  exact C2_row_invariant wOk ["A"] none (by simp) [⟨"A", 2, "AB", some [90, 80]⟩]
    (Or.inl rfl) ⟨"A", 2, "AB", some [90, 80]⟩ (List.mem_singleton.mpr rfl)

/-- C3: every result the per-accession query returns satisfies the
invariant that present confidence scores come with a present sequence of
equal length; and when the parsed score count differs from the sequence
length the call raises the consistency error, which propagates to the
caller instead of a result being returned. -/
theorem C3_result_invariant :
    (∀ (w : HttpWorld) (a : String) (t r b : Nat) (g : Bool) (res : AlphaFoldQueryResult),
      (query_alphafold w a t r g b).1 = .ok res →
      ∀ l, res.plddts = some l → ∃ s, res.sequence = some s ∧ s.length = l.length) ∧
    (∀ (w : HttpWorld) (a : String) (t r b : Nat) (afd : AlphaFoldData) (s u : String)
      (l : List ℚ),
      ((get_with_retries (w.endpoint (ALPHAFOLD_PREDICTION_URL a)) r 5).1).status_code = 200 →
      ((get_with_retries (w.endpoint (ALPHAFOLD_PREDICTION_URL a)) r 5).1).json0 = some afd →
      afd.sequence = some s →
      afd.cifUrl = some u →
      ((get_with_retries (w.endpoint u) r b).1).status_code = 200 →
      parse_plddt_from_cif ((get_with_retries (w.endpoint u) r b).1).text = .ok l →
      s.length ≠ l.length →
      (query_alphafold w a t r true b).1 =
        .error "sequence and plddts do not have the same length") :=
  ⟨fun w a t r b g res h => (query_ok_spec w a t r b g res h).2,
   fun w a t r b afd s u l hst hjson hseq hurl hcst hparse hlen =>
     query_mismatch_error w a t r b afd s u l hst hjson hseq hurl hcst hparse hlen⟩

/-- C3 witness: the invariant on the concrete successful query for "A", and
the raised consistency error on the concrete mismatching network. -/
theorem C3_result_invariant_witness :
    (∃ s, (some "AB" : Option String) = some s ∧ s.length = [(90 : ℚ), 80].length) ∧
    (query_alphafold wMismatch "A" 10 2 true 5).1 =
      .error "sequence and plddts do not have the same length" := by
  constructor
  · exact C3_result_invariant.1 wOk "A" 10 2 5 true
      ⟨200, "A", some "AB", some [90, 80], some ⟨some "AB", some "uA"⟩,
        some [.atom ⟨1, 90⟩, .atom ⟨2, 80⟩]⟩ rfl [90, 80] rfl
  · exact C3_result_invariant.2 wMismatch "A" 10 2 5 ⟨some "ABC", some "uA"⟩ "ABC" "uA"
      [90] rfl rfl rfl rfl rfl rfl (by decide)

/-- C4: whenever consuming the query results raises, the collector writes
nothing to the primary store, re-raises the exception, and persists to the
recovery location exactly the pre-existing rows extended by the rows
appended before the failure. -/
theorem C4_recovery_on_failure (w : HttpWorld) (input : List String)
    (store : Option (List OutputRow)) (q : List String) (rows : List OutputRow) (e : String)
    (h : collectLoop w (store.getD []) (ids_to_query (store.getD []) input)
      = (q, .error (rows, e))) :
    (main w input store).primary = none ∧
    (main w input store).error = some e ∧
    ∃ t, (main w input store).recovery = some (store.getD [] ++ t) := by
  have hm := main_eq_error w input store q rows e h
  rcases (collectLoop_rows w (ids_to_query (store.getD []) input) (store.getD [])).2
    rows e (by rw [h]) with ⟨t, ht⟩
  rw [hm]
  exact ⟨rfl, rfl, t, by rw [← ht]⟩

/-- C4 witness: the failing run on the mismatching network for "A" with an
empty store. -/
theorem C4_recovery_on_failure_witness :
    (main wMismatch ["A"] none).primary = none ∧
    (main wMismatch ["A"] none).error = some "sequence and plddts do not have the same length" ∧
    ∃ t, (main wMismatch ["A"] none).recovery = some ([] ++ t) :=
  C4_recovery_on_failure wMismatch ["A"] none ["A"] []
    "sequence and plddts do not have the same length" rfl

/-- C5 counterexample: re-running after a successful run is not always free
of network queries. On a network answering 404 for "A", the first run
completes successfully but stores no row for "A", so the second run queries
"A" again instead of performing zero queries. -/
theorem C5_counterexample :
    (main w404 ["A"] none).error = none ∧
    (main w404 ["A"] ((main w404 ["A"] none).primary)).queried ≠ [] := by
  constructor
  · rfl
  · decide

/-- C5 (amended): if a run of `collect` completes successfully and every
queried accession answered with status 200, then re-running with the same
input list against the resulting store queries nothing and leaves the row
set exactly as the first run produced it. -/
theorem C5_idempotent (w : HttpWorld) (input : List String)
    (store : Option (List OutputRow))
    (h1 : (main w input store).error = none)
    (h2 : ∀ a ∈ ids_to_query (store.getD []) input,
      ∃ res, (query_alphafold w a 10 2 true 5).1 = .ok res ∧ res.http_status = 200) :
    (main w input ((main w input store).primary)).queried = [] ∧
    (main w input ((main w input store).primary)).primary = (main w input store).primary := by
  rcases hc : collectLoop w (store.getD []) (ids_to_query (store.getD []) input)
    with ⟨q, r2⟩
  rcases r2 with ⟨rows, e⟩ | rows
  · rw [main_eq_error w input store q rows e hc] at h1
    cases h1
  · have hm := main_eq_ok w input store q rows hc
    have hext : ∃ t, rows = store.getD [] ++ t :=
      (collectLoop_rows w (ids_to_query (store.getD []) input) (store.getD [])).1
        rows (by rw [hc])
    have hseen : ∀ a ∈ ids_to_query (store.getD []) input, a ∈ seenAccessions rows :=
      fun a ha => collectLoop_ok_seen w _ (store.getD []) rows (by rw [hc]) a ha (h2 a ha)
    have hids2 : ids_to_query rows input = [] := by
      rw [ids_to_query, List.filter_eq_nil_iff]
      intro a ha
      simp only [decide_eq_true_eq, not_not]
      by_cases hs0 : a ∈ seenAccessions (store.getD [])
      · rcases hext with ⟨t, ht⟩
        rw [ht]
        simp only [seenAccessions, List.map_append, List.mem_append]
        exact Or.inl (by simpa [seenAccessions] using hs0)
      · exact hseen a ((mem_ids_to_query _ _ _).mpr ⟨List.mem_dedup.mp ha, hs0⟩)
    have hq2 : collectLoop w rows (ids_to_query rows input) = ([], .ok rows) := by
      rw [hids2]
      rfl
    have hm2 := main_eq_ok w input (some rows) [] rows hq2
    rw [hm, hm2]
    exact ⟨rfl, rfl⟩

/-- C5 witness: the amended idempotence on the concrete all-successful
network for "A" with an empty store. -/
theorem C5_idempotent_witness :
    (main wOk ["A"] ((main wOk ["A"] none).primary)).queried = [] ∧
    (main wOk ["A"] ((main wOk ["A"] none).primary)).primary = (main wOk ["A"] none).primary := by
  refine C5_idempotent wOk ["A"] none rfl ?_
  intro a ha
  rcases (mem_ids_to_query _ _ _).mp ha with ⟨hin, _⟩
  rcases List.mem_singleton.mp hin with rfl
  exact ⟨⟨200, "A", some "AB", some [90, 80], some ⟨some "AB", some "uA"⟩,
    some [.atom ⟨1, 90⟩, .atom ⟨2, 80⟩]⟩, rfl, rfl⟩

/-- C6: the claim fails on the code. With `backoff_time = 7` the
per-accession query passes backoff 5 — the hardcoded literal of source line
85 — to the metadata fetch while passing 7 to the structure-file fetch, so
the two fetches do not receive the same backoff and the metadata fetch does
not receive the caller's value. -/
theorem C6_backoff_divergence :
    (query_alphafold wOk "A" 10 2 true 7).2 =
      [⟨ALPHAFOLD_PREDICTION_URL "A", 2, 5, 10⟩, ⟨"uA", 2, 7, 10⟩] ∧
    ((query_alphafold wOk "A" 10 2 true 7).2).map (fun c => c.backoff_time) ≠ [7, 7] := by
  constructor
  · rfl
  · decide

/-- C7: the parser appends one value per block of equal residue indices —
a value is appended exactly when the index differs from that of the
previously appended record — so it computes the spec-side change-detection
over the ATOM records (given the validated index/value ranges). -/
theorem C7_change_detection (lines : List CifLine)
    (hvalid : ∀ rec ∈ atomRecords lines, 1 ≤ rec.residue ∧ 0 ≤ rec.plddt ∧ rec.plddt ≤ 100) :
    parse_plddt_from_cif lines = .ok (changeDetectSpec none (atomRecords lines)) :=
  parse_lines_changeDetect lines (-1) none hvalid
    (fun n hn => ⟨fun _ => by simp, fun _ => by omega⟩)

/-- C7 witness: two consecutive ATOM lines with residue 5 followed by one
with residue 6 yield exactly 2 confidence values. -/
theorem C7_change_detection_witness :
    parse_plddt_from_cif [.atom ⟨5, 90⟩, .atom ⟨5, 91⟩, .atom ⟨6, 80⟩] = .ok [90, 80] :=
  (C7_change_detection [.atom ⟨5, 90⟩, .atom ⟨5, 91⟩, .atom ⟨6, 80⟩] (by decide)).trans rfl

/-- C8 counterexample: "the set actually queried equals distinct input minus
stored" does not hold universally. On the mismatching network the query for
"A" raises, the run aborts, and "B" — although pending — is never queried. -/
theorem C8_counterexample :
    (main wMismatch ["A", "B"] none).queried = ["A"] ∧
    "B" ∈ ids_to_query [] ["A", "B"] ∧
    "B" ∉ (main wMismatch ["A", "B"] none).queried := by
  refine ⟨rfl, by decide, by decide⟩

/-- C8 (amended): for every run of `collect` that completes without an
exception, the accessions actually queried are exactly the distinct input
accessions not already present in the store, and each of them is queried
exactly once; a run that aborts queries only part of that set. -/
theorem C8_dedup_filter (w : HttpWorld) (input : List String)
    (store : Option (List OutputRow))
    (h : (main w input store).error = none) :
    (main w input store).queried = ids_to_query (store.getD []) input ∧
    (∀ a, a ∈ (main w input store).queried ↔
      (a ∈ input ∧ a ∉ seenAccessions (store.getD []))) ∧
    (main w input store).queried.Nodup := by
  rcases hc : collectLoop w (store.getD []) (ids_to_query (store.getD []) input)
    with ⟨q, r2⟩
  rcases r2 with ⟨rows, e⟩ | rows
  · rw [main_eq_error w input store q rows e hc] at h
    cases h
  · have hm := main_eq_ok w input store q rows hc
    have hq : q = ids_to_query (store.getD []) input := by
      have h2 := collectLoop_ok_queried w (ids_to_query (store.getD []) input)
        (store.getD []) rows (by rw [hc])
      rw [hc] at h2
      exact h2
    rw [hm]
    refine ⟨hq, fun a => ?_, ?_⟩
    · rw [show (⟨some rows, none, none, q⟩ : CollectOutcome).queried = q from rfl, hq]
      exact mem_ids_to_query (store.getD []) input a
    · rw [show (⟨some rows, none, none, q⟩ : CollectOutcome).queried = q from rfl, hq]
      exact ids_to_query_nodup (store.getD []) input

/-- C8 witness: input `["A", "B", "A", "C"]` with "B" already stored, on the
all-404 network (every query answered, run completes): exactly the pending
set is queried, once each. -/
theorem C8_dedup_filter_witness :
    (main w404 ["A", "B", "A", "C"] (some [⟨"B", 1, "X", none⟩])).queried = ["A", "C"] ∧
    (main w404 ["A", "B", "A", "C"] (some [⟨"B", 1, "X", none⟩])).queried =
      ids_to_query [⟨"B", 1, "X", none⟩] ["A", "B", "A", "C"] ∧
    ("B" ∈ ["A", "B", "A", "C"] ∧ "B" ∉ seenAccessions [⟨"B", 1, "X", none⟩] ↔
      "B" ∈ (main w404 ["A", "B", "A", "C"] (some [⟨"B", 1, "X", none⟩])).queried) ∧
    (main w404 ["A", "B", "A", "C"] (some [⟨"B", 1, "X", none⟩])).queried.Nodup := by
  have h := C8_dedup_filter w404 ["A", "B", "A", "C"] (some [⟨"B", 1, "X", none⟩]) rfl
  exact ⟨rfl, h.1, (h.2.1 "B").symm, h.2.2⟩

/-- C9: any ATOM line whose residue index is below 1 or whose confidence
value lies outside [0, 100] makes `parse_plddt_from_cif` raise one of its
two validation errors (never an ok result, so nothing is clamped or
dropped). -/
theorem C9_validation (lines : List CifLine)
    (hbad : ∃ rec ∈ atomRecords lines, rec.residue < 1 ∨ rec.plddt < 0 ∨ 100 < rec.plddt) :
    parse_plddt_from_cif lines = .error "Parsed a residue number which is smaller than 1" ∨
    parse_plddt_from_cif lines = .error "Parsed a plddt which is not between 1 and 100" :=
  parse_lines_error_of_invalid lines (-1) hbad

/-- C9 witness: a line with confidence 150 errors, and a line with residue
index 0 errors. -/
theorem C9_validation_witness :
    (parse_plddt_from_cif [.atom ⟨1, 150⟩] =
        .error "Parsed a residue number which is smaller than 1" ∨
      parse_plddt_from_cif [.atom ⟨1, 150⟩] =
        .error "Parsed a plddt which is not between 1 and 100") ∧
    (parse_plddt_from_cif [.atom ⟨0, 50⟩] =
        .error "Parsed a residue number which is smaller than 1" ∨
      parse_plddt_from_cif [.atom ⟨0, 50⟩] =
        .error "Parsed a plddt which is not between 1 and 100") :=
  ⟨C9_validation [.atom ⟨1, 150⟩] (by decide), C9_validation [.atom ⟨0, 50⟩] (by decide)⟩

/-- C10: the engine can return a result with status 200 and no sequence
(metadata parses but lacks the sequence key), and on consuming any such
result the collector neither skips it nor appends a row: taking the length
of the absent sequence raises, the loop aborts there and hands the rows
accumulated so far to the exception path. -/
theorem C10_none_sequence_aborts :
    (query_alphafold wNoSeq "X" 10 2 true 5).1 =
      .ok ⟨200, "X", none, none, some ⟨none, none⟩, none⟩ ∧
    ∀ (w : HttpWorld) (rows : List OutputRow) (a : String) (rest : List String)
      (res : AlphaFoldQueryResult),
      (query_alphafold w a 10 2 true 5).1 = .ok res →
      res.http_status = 200 →
      res.sequence = none →
      collectLoop w rows (a :: rest) =
        ([a], .error (rows, "TypeError: object of type NoneType has no len")) := by
  constructor
  · rfl
  · intro w rows a rest res hq hst hs
    simp [collectLoop, hq, hst, hs]

/-- C10 witness: the abort on the concrete no-sequence network for "X". -/
theorem C10_none_sequence_aborts_witness :
    collectLoop wNoSeq [] ["X"] =
      (["X"], .error ([], "TypeError: object of type NoneType has no len")) :=
  C10_none_sequence_aborts.2 wNoSeq [] "X" []
    ⟨200, "X", none, none, some ⟨none, none⟩, none⟩ rfl rfl rfl

end AFQ
